import Mathlib

/-!
Shallow embedding of `src/torcheeg/trainers/imbalance/focal.py`.

Real (floating-point) scalars are modelled as `ℚ`.  The transcendental
primitives of the torch backend (`torch.exp`, the logarithm inside
`F.cross_entropy`, and the real power `x ** y`) have no computable rational
counterpart, so they are abstracted into a `TorchCfg` record of rational
functions; every theorem below that holds for all `TorchCfg` is a fact about
the *structure* of the code, independent of the numerics.  Facts that need a
property of the real functions (such as `x ** 0 = 1`) take that property as an
explicit hypothesis.
-/

namespace TorchEEG

/-- Result of a loss computation: a scalar tensor or a per-sample vector. -/
inductive Out where
  | scalar (v : ℚ)
  | vector (l : List ℚ)
deriving DecidableEq

/-- Abstracted transcendental primitives of the torch backend:
`exp` models `torch.exp` (also the exponentials inside softmax), `log` the
logarithm inside `F.cross_entropy`, and `qpow x y` the real power `x ** y`. -/
structure TorchCfg where
  exp : ℚ → ℚ
  log : ℚ → ℚ
  qpow : ℚ → ℚ → ℚ

/-- Per-sample negative log-likelihood of the true class for one row of
logits: `-log softmax(z)[t] = log (Σ_j exp z_j) - z_t`.  An out-of-range
target would raise in torch; rows are only ever evaluated at valid targets,
where `getD` returns the actual entry. -/
def nllRow (cfg : TorchCfg) (z : List ℚ) (t : ℕ) : ℚ :=
  cfg.log ((z.map cfg.exp).sum) - z.getD t 0

/-- Per-sample values of `F.cross_entropy(input, target, weight, reduction='none')`:
the unweighted NLL of each sample, multiplied (when a weight vector is given)
by the weight of the sample's target class. -/
def cePerSample (cfg : TorchCfg) (input : List (List ℚ)) (target : List ℕ)
    (weight : Option (List ℚ)) : List ℚ :=
  (input.zip target).map (fun zt =>
    match weight with
    | none => nllRow cfg zt.1 zt.2
    | some w => w.getD zt.2 0 * nllRow cfg zt.1 zt.2)

/-- `F.cross_entropy` with a reduction mode, as in torch: with a weight
vector, `mean` divides by the sum of the per-sample weights; a reduction
string other than `mean`/`sum`/`none` raises (`none` here). -/
def FCrossEntropy (cfg : TorchCfg) (input : List (List ℚ)) (target : List ℕ)
    (weight : Option (List ℚ)) (reduction : String) : Option Out :=
  let l := cePerSample cfg input target weight
  if reduction = "mean" then
    match weight with
    | none => some (Out.scalar (l.sum / (l.length : ℚ)))
    | some w =>
        some (Out.scalar (l.sum / ((input.zip target).map (fun zt => w.getD zt.2 0)).sum))
  else if reduction = "sum" then
    some (Out.scalar l.sum)
  else if reduction = "none" then
    some (Out.vector l)
  else
    none

/-- The `FocalLoss` module: `gamma`, the registered `weight` buffer, and the
`reduction` string (`'mean'` by default at every construction site). -/
structure FocalLoss where
  gamma : ℚ
  weight : Option (List ℚ)
  reduction : String

/-- The reduction dispatch at the end of `FocalLoss.forward`:
`if self.reduction == 'mean': return loss.mean()`,
`elif self.reduction == 'sum': return loss.sum()`, `else: return loss`. -/
def applyReduction (reduction : String) (loss : List ℚ) : Out :=
  if reduction = "mean" then Out.scalar (loss.sum / (loss.length : ℚ))
  else if reduction = "sum" then Out.scalar loss.sum
  else Out.vector loss

/-- The per-sample loss of `FocalLoss.forward`:
`ce_loss = F.cross_entropy(input, target, reduction='none')` — note the
source passes no `weight=` argument here — then `p = torch.exp(-ce_loss)`
and `loss = (1 - p)**self.gamma * ce_loss`. -/
def focalPerSample (cfg : TorchCfg) (fl : FocalLoss) (input : List (List ℚ))
    (target : List ℕ) : List ℚ :=
  (cePerSample cfg input target none).map (fun c =>
    cfg.qpow (1 - cfg.exp (-c)) fl.gamma * c)

/-- `FocalLoss.forward(input, target)`. -/
def FocalLoss.forward (cfg : TorchCfg) (fl : FocalLoss) (input : List (List ℚ))
    (target : List ℕ) : Out :=
  applyReduction fl.reduction (focalPerSample cfg fl input target)

/-- `effective_num = 1.0 - np.power(self.beta_reweight, self._class_frequency)`. -/
def effectiveNum (beta : ℚ) (freq : List ℕ) : List ℚ :=
  freq.map (fun n => 1 - beta ^ n)

/-- The weight computation shared by `rule = 'reweight'` and the `drw`
terminal vector:
`_weight = (1.0 - beta) / np.array(effective_num)` followed by
`_weight = _weight / np.sum(_weight) * num_classes`.
`ℚ`-division is total with `x / 0 = 0`; it stands in for numpy emitting
non-finite values (without raising) when an effective number is zero. -/
def reweightVector (beta : ℚ) (freq : List ℕ) (numClasses : ℕ) : List ℚ :=
  let raw := (effectiveNum beta freq).map (fun e => (1 - beta) / e)
  raw.map (fun r => r / raw.sum * (numClasses : ℚ))

/-- The error message of the assert in the frequency-counting loop:
`f"The label in class_frequency ({y}) is out of range 0-{self.num_classes-1}."`. -/
def outOfRangeMsg (y : ℤ) (numClasses : ℕ) : String :=
  "The label in class_frequency (" ++ toString y ++ ") is out of range 0-"
    ++ toString (numClasses - 1) ++ "."

/-- `_class_frequency[idx] += 1` on a list of counters. -/
def incrementAt (l : List ℕ) (i : ℕ) : List ℕ :=
  l.set i (l.getD i 0 + 1)

/-- The loop `for _, y in class_frequency: assert y < self.num_classes, ...;
_class_frequency[y] += 1`.  Labels are integers: the assert only bounds them
from above, and Python list indexing resolves a negative index `y` to
`num_classes + y` (an `IndexError` if still negative). -/
def countLabelsAux (numClasses : ℕ) : List ℤ → List ℕ → Except String (List ℕ)
  | [], acc => Except.ok acc
  | y :: ys, acc =>
    if y < (numClasses : ℤ) then
      if 0 ≤ (if 0 ≤ y then y else (numClasses : ℤ) + y) then
        countLabelsAux numClasses ys
          (incrementAt acc (if 0 ≤ y then y else (numClasses : ℤ) + y).toNat)
      else
        Except.error "IndexError: list index out of range"
    else
      Except.error (outOfRangeMsg y numClasses)

/-- Derivation of `_class_frequency` from a loader, starting from
`[0] * self.num_classes`. -/
def countClassFrequency (numClasses : ℕ) (labels : List ℤ) : Except String (List ℕ) :=
  countLabelsAux numClasses labels (List.replicate numClasses 0)

/-- The `class_frequency` constructor argument: a list of counts, or a
dataloader modelled by the sequence of labels it yields. -/
inductive ClassFrequencyInput where
  | direct (freq : List ℕ)
  | loader (labels : List ℤ)

/-- `self._class_frequency`: taken verbatim from a list, or counted from a
loader. -/
def computeClassFrequency (numClasses : ℕ) :
    ClassFrequencyInput → Except String (List ℕ)
  | ClassFrequencyInput.direct f => Except.ok f
  | ClassFrequencyInput.loader ls => countClassFrequency numClasses ls

/-- The state of a `FocalLossTrainer` relevant to the loss computation.
The model, optimizer settings, devices and metrics are external collaborators
and are not represented.  `weight` is `self._weight`, `drw_weight` is
`self._drw_weight` (populated only for `rule = 'drw'`). -/
structure FocalLossTrainer where
  gamma : ℚ
  classFrequency : List ℕ
  rule : String
  betaReweight : ℚ
  drwEpochs : ℕ
  weight : Option (List ℚ)
  drw_weight : Option (List ℚ)
  focal_fn : FocalLoss

/-- `FocalLossTrainer.__init__`: count frequencies if a loader was passed,
assert the rule is one of `none`/`reweight`/`drw`, compute the weight
vector(s) for the rule, and build `self.focal_fn = FocalLoss(gamma=self.gamma,
weight=self._weight)` (reduction `'mean'` by default). -/
def FocalLossTrainer.init (numClasses : ℕ) (classFrequency : ClassFrequencyInput)
    (gamma : ℚ) (rule : String) (betaReweight : ℚ) (drwEpochs : ℕ) :
    Except String FocalLossTrainer :=
  match computeClassFrequency numClasses classFrequency with
  | Except.error e => Except.error e
  | Except.ok freq =>
    if rule = "none" ∨ rule = "reweight" ∨ rule = "drw" then
      if rule = "none" then
        Except.ok { gamma := gamma, classFrequency := freq, rule := rule,
                    betaReweight := betaReweight, drwEpochs := drwEpochs,
                    weight := none, drw_weight := none,
                    focal_fn := { gamma := gamma, weight := none, reduction := "mean" } }
      else if rule = "reweight" then
        Except.ok { gamma := gamma, classFrequency := freq, rule := rule,
                    betaReweight := betaReweight, drwEpochs := drwEpochs,
                    weight := some (reweightVector betaReweight freq numClasses),
                    drw_weight := none,
                    focal_fn := { gamma := gamma,
                                  weight := some (reweightVector betaReweight freq numClasses),
                                  reduction := "mean" } }
      else
        Except.ok { gamma := gamma, classFrequency := freq, rule := rule,
                    betaReweight := betaReweight, drwEpochs := drwEpochs,
                    weight := some (List.replicate numClasses (1 : ℚ)),
                    drw_weight := some (reweightVector betaReweight freq numClasses),
                    focal_fn := { gamma := gamma,
                                  weight := some (List.replicate numClasses (1 : ℚ)),
                                  reduction := "mean" } }
    else
      Except.error ("Unsupported rule: " ++ rule ++ ".")

/-- `on_train_epoch_start`: when the current epoch equals `drw_epochs` and the
rule is `drw`, replace `self.focal_fn` by a fresh `FocalLoss` carrying
`self._drw_weight` (reduction `'mean'` by default). -/
def FocalLossTrainer.onTrainEpochStart (t : FocalLossTrainer)
    (currentEpoch : ℕ) : FocalLossTrainer :=
  if currentEpoch = t.drwEpochs ∧ t.rule = "drw" then
    { t with focal_fn := { gamma := t.gamma, weight := t.drw_weight, reduction := "mean" } }
  else t

/-- Trainer state inside epoch `e`: the hook has run at the start of epochs
`0, 1, ..., e`. -/
def FocalLossTrainer.atEpoch (t : FocalLossTrainer) : ℕ → FocalLossTrainer
  | 0 => t.onTrainEpochStart 0
  | e + 1 => (t.atEpoch e).onTrainEpochStart (e + 1)

/-- The loss of `training_step` on a batch, given the model output `yhat`:
`loss = self.focal_fn(y_hat, y)`. -/
def FocalLossTrainer.trainingStepLoss (t : FocalLossTrainer) (cfg : TorchCfg)
    (yhat : List (List ℚ)) (y : List ℕ) : Out :=
  FocalLoss.forward cfg t.focal_fn yhat y

/-- The training-step loss computed on a batch during epoch `e`. -/
def lossAtEpoch (t : FocalLossTrainer) (cfg : TorchCfg) (e : ℕ)
    (yhat : List (List ℚ)) (y : List ℕ) : Out :=
  (t.atEpoch e).trainingStepLoss cfg yhat y

/-- A concrete `TorchCfg` used only to evaluate closed statements; `qpow`
agrees with the real power on the exponent `0`. -/
def evalCfg : TorchCfg where
  exp := fun x => x + 1
  log := fun x => x - 1
  qpow := fun x y => if y = 0 then 1 else x * y

/-- Summing a list after dividing each entry by `s` and scaling by `c`. -/
theorem sum_map_div_mul (l : List ℚ) (s c : ℚ) :
    (l.map (fun r => r / s * c)).sum = l.sum / s * c := by
  induction l with
  | nil => simp
  | cons a t ih => simp only [List.map_cons, List.sum_cons, ih]; ring

/-- Each raw effective-number weight is positive when `β ∈ [0,1)` and every
class frequency is non-zero. -/
theorem raw_weight_pos (β : ℚ) (hβ0 : 0 ≤ β) (hβ1 : β < 1) (n : ℕ) (hn : n ≠ 0) :
    0 < (1 - β) / (1 - β ^ n) := by
  have h := pow_lt_one₀ hβ0 hβ1 hn
  exact div_pos (by linarith) (by linarith)

/-- The sum of the raw effective-number weights is positive. -/
theorem raw_sum_pos (β : ℚ) (freq : List ℕ) (hβ0 : 0 ≤ β) (hβ1 : β < 1)
    (hpos : ∀ n ∈ freq, n ≠ 0) (hne : freq ≠ []) :
    0 < ((effectiveNum β freq).map (fun e => (1 - β) / e)).sum := by
  apply List.sum_pos
  · intro x hx
    simp only [effectiveNum, List.map_map, List.mem_map, Function.comp_def] at hx
    obtain ⟨n, hn, rfl⟩ := hx
    exact raw_weight_pos β hβ0 hβ1 n (hpos n hn)
  · simpa [effectiveNum] using hne

/-- Claim C1 (code bug): `FocalLoss.forward` calls
`F.cross_entropy(input, target, reduction='none')` without passing the
registered `weight` buffer, so its output is the same for every weight
vector — contradicting the claim that the per-sample cross-entropy uses the
active per-class weight vector. -/
theorem forward_ignores_weight (cfg : TorchCfg) (γ : ℚ) (w1 w2 : Option (List ℚ))
    (red : String) (input : List (List ℚ)) (target : List ℕ) :
    FocalLoss.forward cfg { gamma := γ, weight := w1, reduction := red } input target =
      FocalLoss.forward cfg { gamma := γ, weight := w2, reduction := red } input target := rfl

/-- Claim C3 (code bug): constructing the trainer with `rule='reweight'` and
`class_frequency=[5,0]` succeeds — no validation error is raised — while the
effective number of the zero-frequency class is `1 - β^0 = 0`, the
denominator numpy divides by (yielding a non-finite weight). -/
theorem zero_frequency_accepted :
    (∃ t, FocalLossTrainer.init 2 (ClassFrequencyInput.direct [5, 0]) (1/2)
        "reweight" (9999/10000) 160 = Except.ok t) ∧
    (effectiveNum (9999/10000) [5, 0]).getD 1 1 = 0 :=
  ⟨⟨_, rfl⟩, by norm_num [effectiveNum]⟩

/-- Claim C9 (confirmed): the reduction dispatch returns the arithmetic mean
for `'mean'`, the sum for `'sum'`, and the unreduced per-sample sequence for
`'none'`. -/
theorem reduction_modes (l : List ℚ) (_h : l ≠ []) :
    applyReduction "mean" l = Out.scalar (l.sum / (l.length : ℚ)) ∧
    applyReduction "sum" l = Out.scalar l.sum ∧
    applyReduction "none" l = Out.vector l :=
  ⟨by simp [applyReduction], by simp [applyReduction], by simp [applyReduction]⟩

/-- Witness for C9 at the spec's per-sample sequence `[1.0, 3.0]`. -/
theorem reduction_modes_witness :
    applyReduction "mean" [(1 : ℚ), 3] = Out.scalar 2 ∧
    applyReduction "sum" [(1 : ℚ), 3] = Out.scalar 4 ∧
    applyReduction "none" [(1 : ℚ), 3] = Out.vector [1, 3] := by
  have h := reduction_modes [(1 : ℚ), 3] (by decide)
  exact ⟨h.1.trans (congrArg Out.scalar (by norm_num)),
    h.2.1.trans (congrArg Out.scalar (by norm_num)), h.2.2⟩

/-- Claim C10 (confirmed): for any reduction string other than `'mean'` and
`'sum'` — not only `'none'` — `FocalLoss.forward` silently returns the
unreduced per-sample loss vector instead of raising. -/
theorem unknown_reduction_returns_unreduced (cfg : TorchCfg) (γ : ℚ)
    (w : Option (List ℚ)) (red : String) (input : List (List ℚ)) (target : List ℕ)
    (h1 : red ≠ "mean") (h2 : red ≠ "sum") :
    FocalLoss.forward cfg { gamma := γ, weight := w, reduction := red } input target =
      Out.vector (focalPerSample cfg { gamma := γ, weight := w, reduction := red }
        input target) := by
  simp [FocalLoss.forward, applyReduction, h1, h2]

/-- Witness for C10 at the misspelled reduction string `'meen'`. -/
theorem unknown_reduction_returns_unreduced_witness :
    FocalLoss.forward evalCfg { gamma := 1, weight := none, reduction := "meen" }
        [[0]] [0] =
      Out.vector (focalPerSample evalCfg
        { gamma := 1, weight := none, reduction := "meen" } [[0]] [0]) :=
  unknown_reduction_returns_unreduced evalCfg 1 none "meen" [[0]] [0]
    (by decide) (by decide)

/-- Claim C2 (code bug): for `rule='drw'`, `drw_epochs=2`,
`class_frequency=[10,100]`, the trainer's loss unit does carry the uniform
vector during epoch 1 and the reweighted vector from epoch 2 on (and the two
vectors differ), yet the training-step loss on an identical batch is the same
at epoch 1 and epoch 2 — `FocalLoss.forward` never reads the weight buffer,
so the claimed loss difference does not occur. -/
theorem drw_swap_leaves_loss_unchanged (cfg : TorchCfg) (yhat : List (List ℚ))
    (y : List ℕ) :
    ∃ t, FocalLossTrainer.init 2 (ClassFrequencyInput.direct [10, 100]) (1/2)
        "drw" (9999/10000) 2 = Except.ok t ∧
      (t.atEpoch 1).focal_fn.weight = some [1, 1] ∧
      (t.atEpoch 2).focal_fn.weight =
        some (reweightVector (9999/10000) [10, 100] 2) ∧
      reweightVector (9999/10000) [10, 100] 2 ≠ [1, 1] ∧
      lossAtEpoch t cfg 1 yhat y = lossAtEpoch t cfg 2 yhat y := by
  refine ⟨_, rfl, rfl, rfl, ?_, rfl⟩
  simp only [reweightVector, effectiveNum]
  norm_num

/-- Claim C4 (confirmed): for all-positive class frequencies and `β ∈ [0,1)`,
the reweight (and drw terminal) vector is exactly the normalized
effective-number formula, and it sums to `num_classes`. -/
theorem reweight_formula_and_sum (β : ℚ) (freq : List ℕ) (ncl : ℕ)
    (hβ0 : 0 ≤ β) (hβ1 : β < 1) (hpos : ∀ n ∈ freq, n ≠ 0) (hne : freq ≠ []) :
    reweightVector β freq ncl =
      freq.map (fun n => ((1 - β) / (1 - β ^ n)) /
        ((freq.map (fun m => (1 - β) / (1 - β ^ m))).sum) * (ncl : ℚ)) ∧
    (reweightVector β freq ncl).sum = (ncl : ℚ) := by
  constructor
  · simp [reweightVector, effectiveNum, List.map_map, Function.comp_def]
  · have hS := raw_sum_pos β freq hβ0 hβ1 hpos hne
    simp only [reweightVector]
    rw [sum_map_div_mul, div_self hS.ne', one_mul]

/-- Witness for C4 at `β = 1/2`, `class_frequency = [1, 2]`, two classes. -/
theorem reweight_formula_and_sum_witness :
    (reweightVector (1/2) [1, 2] 2).sum = ((2 : ℕ) : ℚ) :=
  (reweight_formula_and_sum (1/2) [1, 2] 2 (by norm_num) (by norm_num)
    (by decide) (by decide)).2

/-- Claim C5 counterexample: the label `-1` with two classes is outside
`[0, 2)`, yet frequency counting does not fail — the assert only bounds
labels from above, and Python's negative indexing silently counts the label
toward class `1`. -/
theorem negative_label_silently_counted :
    countClassFrequency 2 [(-1 : ℤ)] = Except.ok [0, 1] := rfl

/-- Claim C5 (corrected): a label `y ≥ num_classes` fails fast with the
descriptive range error; a negative label is not rejected: for
`-num_classes ≤ y < 0` it is silently counted toward class `num_classes + y`,
and for `y < -num_classes` counting fails with a bare `IndexError` that names
neither the value nor the range. -/
theorem label_range_check_spec (n : ℕ) (y : ℤ) :
    ((n : ℤ) ≤ y →
      countClassFrequency n [y] = Except.error (outOfRangeMsg y n)) ∧
    (y < -(n : ℤ) →
      countClassFrequency n [y] =
        Except.error "IndexError: list index out of range") ∧
    (-(n : ℤ) ≤ y → y < 0 →
      countClassFrequency n [y] =
        Except.ok (incrementAt (List.replicate n 0) ((n : ℤ) + y).toNat)) := by
  refine ⟨fun h => ?_, fun h => ?_, fun h1 h2 => ?_⟩ <;>
    simp only [countClassFrequency, countLabelsAux] <;>
    split_ifs <;> first | rfl | omega

/-- Witness for C5's amended claim: with three classes, label `5` is rejected
with the range message, while label `-2` is silently counted toward class
`1`. -/
theorem label_range_check_spec_witness :
    countClassFrequency 3 [(5 : ℤ)] = Except.error (outOfRangeMsg 5 3) ∧
    countClassFrequency 3 [(-2 : ℤ)] = Except.ok [0, 1, 0] :=
  ⟨(label_range_check_spec 3 5).1 (by decide),
    ((label_range_check_spec 3 (-2)).2.2 (by decide) (by decide)).trans rfl⟩

/-- With `gamma = 0` the focal modulation factor is `(1-p)^0 = 1`, so the
per-sample focal loss is exactly the unweighted per-sample cross-entropy. -/
theorem focalPerSample_gamma_zero (cfg : TorchCfg)
    (hpow : ∀ x, cfg.qpow x 0 = 1) (w : Option (List ℚ)) (red : String)
    (input : List (List ℚ)) (target : List ℕ) :
    focalPerSample cfg { gamma := 0, weight := w, reduction := red } input target =
      cePerSample cfg input target none := by
  simp [focalPerSample, hpow]

/-- Claim C6 counterexample: with `gamma = 0`, weight `[1, 3]` and reduction
`'sum'`, the focal-loss output differs from the weighted cross-entropy on the
same input — the weight buffer is never applied inside `forward`. -/
theorem gamma_zero_ne_weighted_ce :
    some (FocalLoss.forward evalCfg
        { gamma := 0, weight := some [1, 3], reduction := "sum" } [[0, 0]] [1]) ≠
      FCrossEntropy evalCfg [[0, 0]] [1] (some [1, 3]) "sum" := by
  simp [FocalLoss.forward, applyReduction, focalPerSample, cePerSample,
    nllRow, FCrossEntropy, evalCfg]
  norm_num

/-- Claim C6 (corrected): with `gamma = 0` the focal-loss output equals the
plain **unweighted** cross-entropy under the same reduction mode, whatever
weight vector the module carries (the implementation ignores it). -/
theorem gamma_zero_eq_unweighted_ce (cfg : TorchCfg)
    (hpow : ∀ x, cfg.qpow x 0 = 1) (w : Option (List ℚ)) (red : String)
    (input : List (List ℚ)) (target : List ℕ)
    (hred : red = "mean" ∨ red = "sum" ∨ red = "none") :
    some (FocalLoss.forward cfg { gamma := 0, weight := w, reduction := red }
        input target) =
      FCrossEntropy cfg input target none red := by
  have h := focalPerSample_gamma_zero cfg hpow w red input target
  rcases hred with h1 | h1 | h1 <;> subst h1 <;>
    simp [FocalLoss.forward, applyReduction, FCrossEntropy, h]

/-- Witness for C6's amended claim under the `'mean'` reduction. -/
theorem gamma_zero_eq_unweighted_ce_witness :
    some (FocalLoss.forward evalCfg
        { gamma := 0, weight := some [1, 3], reduction := "mean" } [[0, 0]] [1]) =
      FCrossEntropy evalCfg [[0, 0]] [1] none "mean" :=
  gamma_zero_eq_unweighted_ce evalCfg (fun x => by simp [evalCfg])
    (some [1, 3]) "mean" [[0, 0]] [1] (Or.inl rfl)

/-- Claim C7 (confirmed): any rule outside `{'none', 'reweight', 'drw'}`
makes construction fail with the descriptive `Unsupported rule` error. -/
theorem invalid_rule_rejected (ncl : ℕ) (freq : List ℕ) (γ β : ℚ) (d : ℕ)
    (rule : String) (h1 : rule ≠ "none") (h2 : rule ≠ "reweight")
    (h3 : rule ≠ "drw") :
    FocalLossTrainer.init ncl (ClassFrequencyInput.direct freq) γ rule β d =
      Except.error ("Unsupported rule: " ++ rule ++ ".") := by
  simp [FocalLossTrainer.init, computeClassFrequency, h1, h2, h3]

/-- Witness for C7 at `rule = 'invalid'`. -/
theorem invalid_rule_rejected_witness :
    FocalLossTrainer.init 2 (ClassFrequencyInput.direct [5, 5]) (1/2) "invalid"
        (9999/10000) 160 =
      Except.error ("Unsupported rule: " ++ "invalid" ++ ".") :=
  invalid_rule_rejected 2 [5, 5] (1/2) (9999/10000) 160 "invalid"
    (by decide) (by decide) (by decide)

/-- Claim C8 (confirmed): when all class frequencies are equal (and positive),
the reweight vector is `[1, 1, ..., 1]` with `num_classes` entries. -/
theorem uniform_frequency_unit_weights (ncl c : ℕ) (β : ℚ) (hβ0 : 0 ≤ β)
    (hβ1 : β < 1) (hc : c ≠ 0) (hncl : ncl ≠ 0) :
    reweightVector β (List.replicate ncl c) ncl = List.replicate ncl 1 := by
  have hpow := pow_lt_one₀ hβ0 hβ1 hc
  have h1 : (1 : ℚ) - β ^ c ≠ 0 := by linarith
  have h2 : (1 : ℚ) - β ≠ 0 := by linarith
  have hn : ((ncl : ℚ)) ≠ 0 := Nat.cast_ne_zero.mpr hncl
  simp only [reweightVector, effectiveNum, List.map_replicate,
    List.sum_replicate, nsmul_eq_mul]
  congr 1
  field_simp
  ring

/-- Witness for C8 with two classes of frequency 3 each at `β = 1/2`. -/
theorem uniform_frequency_unit_weights_witness :
    reweightVector (1/2) (List.replicate 2 3) 2 = List.replicate 2 1 :=
  uniform_frequency_unit_weights 2 3 (1/2) (by norm_num) (by norm_num)
    (by decide) (by decide)

end TorchEEG
